import Mathlib

/-!
Shallow embedding of the pguenezan/gateway API gateway (Rust) for checking
its natural-language specification.  Strings are modelled as lists of
characters (`Str`), hash maps as association lists with replace-on-insert
semantics, and each Rust function of interest is translated into an
executable Lean definition carrying the same name where possible.
-/

namespace Gateway

/-- Strings are modelled as lists of characters. -/
abbrev Str := List Char

/-- Association-list lookup, the model of `HashMap::get`. -/
def lookupA {α : Type} (k : Str) : List (Str × α) → Option α
  | [] => none
  | (k', v) :: r => if k' = k then some v else lookupA k r

/-- Association-list insert with replace-on-collision, the model of
`HashMap::insert`. -/
def insertA {α : Type} (k : Str) (v : α) : List (Str × α) → List (Str × α)
  | [] => [(k, v)]
  | (k', v') :: r => if k' = k then (k, v) :: r else (k', v') :: insertA k v r

/-- Structure `Endpoint` from `src/endpoint.rs`. -/
structure Endpoint where
  path : Str
  method : Str
  is_websocket : Bool
  permission : Str
  check_permission : Bool
  deriving DecidableEq, Repr

/-- Route-trie node from `src/route.rs`: method table, literal children and
the optional parameter child. -/
inductive Node : Type where
  | mk (endpoint_set : List (Str × Endpoint)) (sub_route : List (Str × Node))
      (param : Option Node)

/-- Method table of a node. -/
def Node.endpoint_set : Node → List (Str × Endpoint)
  | .mk es _ _ => es

/-- Literal children of a node. -/
def Node.sub_route : Node → List (Str × Node)
  | .mk _ sr _ => sr

/-- Parameter child of a node. -/
def Node.param : Node → Option Node
  | .mk _ _ p => p

/-- Constructor `Node::empty` from `src/route.rs`. -/
def Node.empty : Node := .mk [] [] none

/-- Function `strip_path` from `src/route.rs`: below two characters the path is kept
as is; otherwise the first byte is dropped, and the last byte as well when
it is a slash. -/
def strip_path (p : Str) : Str :=
  if p.length < 2 then p
  else if p.getLast? = some '/' then (p.drop 1).dropLast
  else p.drop 1

/-- Rust `str::split('/')`: splitting the empty string yields one empty
piece, and every separator opens a new piece. -/
def splitSlash : Str → List Str
  | [] => [[]]
  | c :: r =>
    if c = '/' then [] :: splitSlash r
    else
      match splitSlash r with
      | [] => [[c]]
      | s :: ss => (c :: s) :: ss

/-- Scans for a `}` occurring before any `/`; used to decide whether a `{`
opens a match of the regex `\{[^/]*\}`. -/
def closesBeforeSlash : Str → Bool
  | [] => false
  | c :: r =>
    if c = '}' then true
    else if c = '/' then false
    else closesBeforeSlash r

/-- Predicate `IS_PARAM.is_match` from `src/route.rs`: the segment contains a match
of `\{[^/]*\}` somewhere. -/
def isParam : Str → Bool
  | [] => false
  | c :: r => (c = '{' && closesBeforeSlash r) || isParam r

/-- Method `Node::insert` from `src/route.rs`: walk the split path, descending
into (or creating) the literal child for a non-parameter segment and the
`param` child for a parameter segment; at the end record the endpoint
under its method. -/
def Node.insert : Node → List Str → Endpoint → Node
  | n, [], e => .mk (insertA e.method e n.endpoint_set) n.sub_route n.param
  | n, s :: rest, e =>
    if isParam s then
      match n.param with
      | some p => .mk n.endpoint_set n.sub_route (some (Node.insert p rest e))
      | none => .mk n.endpoint_set n.sub_route (some (Node.insert Node.empty rest e))
    else
      match lookupA s n.sub_route with
      | some child => .mk n.endpoint_set (insertA s (Node.insert child rest e) n.sub_route) n.param
      | none => .mk n.endpoint_set (insertA s (Node.insert Node.empty rest e) n.sub_route) n.param

/-- Method `Node::match_path` from `src/route.rs`, with the path already stripped
and split: exhausting the segments looks the method up at the current node;
otherwise the literal child is preferred and the `param` child is the
fallback. -/
def Node.match_path : Node → List Str → Str → Option Endpoint
  | n, [], m => lookupA m n.endpoint_set
  | n, s :: rest, m =>
    match lookupA s n.sub_route with
    | some child => Node.match_path child rest m
    | none =>
      match n.param with
      | some child => Node.match_path child rest m
      | none => none

/-- Full `Node::match_path` on a raw path, composing the stripping and the
splitting done at line 92 of `src/route.rs`. -/
def matchFull (n : Node) (p : Str) (m : Str) : Option Endpoint :=
  Node.match_path n (splitSlash (strip_path p)) m

/-! ### Token validation (`src/auth.rs`) -/

/-- Structure `Claims` from `src/auth.rs`. -/
structure Claims where
  sub : Str
  iss : Str
  exp : Nat
  preferred_username : Str
  given_name : Str
  family_name : Str
  email : Str
  token_id : Str
  deriving DecidableEq, Repr

/-- One configured token source.  The cryptographic
`jsonwebtoken::decode::<Claims>` call is opaque from the gateway's side, so
it is modelled as an abstract decoding function from the token text to
optional claims. -/
structure TokenSource where
  token_type : Str
  decode : Str → Option Claims

/-- Constant `AUTH_SHIFT` from `src/auth.rs`: the length of `"Bearer "`. -/
def AUTH_SHIFT : Nat := "Bearer ".length

/-- First successful decode over the configured token sources, paired with
the source's token type (the loop body of `get_claims`). -/
def decodeFirst (sources : List TokenSource) (token : Str) : Option (Claims × Str) :=
  match sources with
  | [] => none
  | s :: rest =>
    match s.decode token with
    | some claims => some (claims, s.token_type)
    | none => decodeFirst rest token

/-- Function `get_claims` from `src/auth.rs`: refuse a header no longer than
`"Bearer "`, then drop the first `AUTH_SHIFT` bytes unconditionally and try
each token source in order on the remainder. -/
def get_claims (sources : List TokenSource) (authorization : Str) : Option (Claims × Str) :=
  if authorization.length ≤ AUTH_SHIFT then none
  else decodeFirst sources (authorization.drop AUTH_SHIFT)

/-! ### Permission strings (`src/endpoint.rs`) -/

/-- Index of the last occurrence of a character in a list, if any. -/
def lastIdxOf (c : Char) : Str → Option Nat
  | [] => none
  | x :: r =>
    match lastIdxOf c r with
    | some j => some (j + 1)
    | none => if x = c then some 0 else none

/-- After an opening `{`, the number of further characters consumed by a
greedy match of `[^/]*\}`: the window runs to the first `/`, and the greedy
star picks the last `}` inside it.  `none` when no `}` occurs before a
slash. -/
def paramSpan (rest : Str) : Option Nat :=
  (lastIdxOf '}' (rest.takeWhile (fun c => c ≠ '/'))).map (· + 1)

/-- Scanning loop of `PATH_TO_PERM.replace_all(path, "{}")`: every
(leftmost, greedy) match of `\{[^/]*\}` is rewritten to the literal `{}`.
The first argument is fuel bounding the number of scanned characters; each
step consumes at least one character, so `l.length` fuel always
suffices. -/
def replaceParamsF : Nat → Str → Str
  | 0, l => l
  | _ + 1, [] => []
  | f + 1, c :: rest =>
    if c = '{' then
      match paramSpan rest with
      | some k => '{' :: '}' :: replaceParamsF f (rest.drop k)
      | none => c :: replaceParamsF f rest
    else c :: replaceParamsF f rest

/-- Rewriting `PATH_TO_PERM.replace_all(path, "{}")` from `src/endpoint.rs`. -/
def replaceParams (l : Str) : Str := replaceParamsF l.length l

/-- Method `Endpoint::build_permission` from `src/endpoint.rs`: sets
`permission` to `"{app}::{method}::{path with parameters collapsed}"`. -/
def Endpoint.build_permission (e : Endpoint) (app : Str) : Endpoint :=
  { e with permission := app ++ "::".data ++ e.method ++ "::".data ++ replaceParams e.path }

/-- Constructor `Endpoint::from_forward_all` from `src/endpoint.rs`. -/
def Endpoint.from_forward_all (path method app : Str) : Endpoint :=
  { path := path
    method := method
    is_websocket := false
    permission := app.drop 1 ++ "::".data ++ method ++ "::FULL_ACCESS".data
    check_permission := true }

/-- Builder `Node::new` from `src/route.rs` restricted to `forward_strict` mode:
each endpoint gets its permission built from `app_name[1..]` and is
inserted at its stripped, split path. -/
def Node.new (app_name : Str) (endpoints : List Endpoint) : Node :=
  endpoints.foldl
    (fun n e =>
      let built := e.build_permission (app_name.drop 1)
      Node.insert n (splitSlash (strip_path built.path)) built)
    Node.empty

/-! ### Permission cache (`src/permission.rs`) -/

/-- Function `has_perm` from `src/permission.rs`: the permission's user set must
exist and contain the token id. -/
def has_perm (perm : List (Str × List Str)) (p : Str) (token_id : Str) : Bool :=
  match lookupA p perm with
  | some users => users.contains token_id
  | none => false

/-- The permission check run by `call` in `src/main.rs` for a request
dispatched in `forward_all` mode: the endpoint is synthesized by
`Endpoint::from_forward_all(forwarded_path, method, app)` and `has_perm`
is consulted on its `permission` field with the claims' token id. -/
def forwardAllPermCheck (perm : List (Str × List Str)) (app forwarded_path method token_id : Str) :
    Bool :=
  has_perm perm (Endpoint.from_forward_all forwarded_path method app).permission token_id

/-! ### Header injection (`inject_headers` in `src/main.rs`) -/

/-- Headers are modelled as an association list; `HeaderMap::insert`
replaces any previous value of the name. -/
abbrev Headers := List (Str × Str)

/-- Removes every entry with the given name (`HeaderMap::remove`). -/
def removeH (k : Str) (h : Headers) : Headers :=
  h.filter (fun kv => kv.1 ≠ k)

/-- Model of `HeaderMap::insert`: the new value replaces any previous one. -/
def insertH (k v : Str) (h : Headers) : Headers :=
  (k, v) :: removeH k h

/-- Header lookup. -/
def lookupH (k : Str) (h : Headers) : Option Str :=
  lookupA k h

/-- One conditional insertion step of `inject_headers`: the value is
inserted only when it parses as a header value (`if let Ok(value) =
x.parse()`), and skipped otherwise. -/
def injectStep (parseOk : Str → Bool) (name value : Str) (h : Headers) : Headers :=
  if parseOk value then insertH name value h else h

/-- The `Authorization` header name. -/
def hAuthorization : Str := "Authorization".data

/-- The `X-Forwarded-User` header name. -/
def hXFUser : Str := "X-Forwarded-User".data

/-- The `X-Forwarded-User-Username` header name. -/
def hXFUsername : Str := "X-Forwarded-User-Username".data

/-- The `X-Forwarded-User-First-Name` header name. -/
def hXFFirstName : Str := "X-Forwarded-User-First-Name".data

/-- The `X-Forwarded-User-Last-Name` header name. -/
def hXFLastName : Str := "X-Forwarded-User-Last-Name".data

/-- The `X-Forwarded-User-Email` header name. -/
def hXFEmail : Str := "X-Forwarded-User-Email".data

/-- The `X-Forwarded-User-Roles` header name. -/
def hXFRoles : Str := "X-Forwarded-User-Roles".data

/-- The `X-Forwarded-User-Type` header name. -/
def hXFType : Str := "X-Forwarded-User-Type".data

/-- Function `inject_headers` from `src/main.rs`.  `removeAuth` models
`cfg!(feature = "remove_authorization_header")`, and `parseOk` models
`HeaderValue` parsing, which is external to the gateway. -/
def inject_headers (removeAuth : Bool) (parseOk : Str → Bool) (h : Headers)
    (claims : Claims) (app_user_roles token_type : Str) : Headers :=
  let h0 := if removeAuth then removeH hAuthorization h else h
  let h1 := injectStep parseOk hXFUser claims.token_id h0
  let h2 := injectStep parseOk hXFUsername claims.preferred_username h1
  let h3 := injectStep parseOk hXFFirstName claims.given_name h2
  let h4 := injectStep parseOk hXFLastName claims.family_name h3
  let h5 := injectStep parseOk hXFEmail claims.email h4
  let h6 := injectStep parseOk hXFRoles app_user_roles h5
  injectStep parseOk hXFType token_type h6

/-- Modelled from the spec: §4.4 step 10 says the outbound request's
`Authorization` header is stripped, i.e. the build enables the
`remove_authorization_header` cargo feature tested by `cfg!` in
`inject_headers` (the crate manifest that fixes the feature set is not
part of the sources). -/
def removeAuthorizationFeature : Bool := true

/-! ### Permission refresher loop (`update_perm` in `src/permission.rs`) -/

/-- One fetch outcome seen by the refresher loop: `none` models a failed
`get_perm` call, `some maps` a successful one carrying the freshly built
perm and role maps. -/
abbrev FetchOutcome (α : Type) := Option α

/-- The refresher loop of `update_perm`, on a list of successive fetch
outcomes: a failure increments the consecutive-error counter and aborts
(`bail!`) once it reaches `max`; a success stores the new maps and resets
the counter.  The result is `none` when the loop aborted and
`some (counter, maps)` with the final state when all outcomes were
consumed. -/
def permRun {α : Type} (max : Nat) : Nat → α → List (FetchOutcome α) → Option (Nat × α)
  | c, maps, [] => some (c, maps)
  | c, maps, none :: rest =>
    if max ≤ c + 1 then none else permRun max (c + 1) maps rest
  | _, _, some m :: rest => permRun max 0 m rest

/-- Length of the leading run of failures in an outcome list. -/
def leadFails {α : Type} : List (FetchOutcome α) → Nat
  | none :: r => leadFails r + 1
  | _ => 0

/-- Whether the outcome list contains `m` consecutive failures somewhere
(the spec-side abort condition). -/
def hasFailRun {α : Type} (m : Nat) : List (FetchOutcome α) → Bool
  | [] => false
  | x :: r => decide (m ≤ leadFails (x :: r)) || hasFailRun m r

/-! ### Gateway-originated responses (`src/main.rs`) -/

/-- The headers set by `get_response` in `src/main.rs`, in builder order. -/
def get_response_headers : Headers :=
  [("access-control-allow-origin".data, "*".data),
   ("access-control-allow-headers".data, "*".data),
   ("access-control-allow-methods".data, "*".data),
   ("access-control-allow-credentials".data, "true".data),
   ("access-control-max-age".data, "86400".data)]

/-- The headers set by `health` in `src/main.rs`, in builder order. -/
def health_headers : Headers :=
  [("access-control-allow-origin".data, "*".data),
   ("access-control-allow-headers".data, "*".data),
   ("access-control-allow-methods".data, "*".data)]

/-- The full permissive CORS set that §4.4 of the spec attributes to every
gateway-originated response. -/
def specCorsHeaders : Headers :=
  [("access-control-allow-origin".data, "*".data),
   ("access-control-allow-headers".data, "*".data),
   ("access-control-allow-methods".data, "*".data),
   ("access-control-expose-headers".data, "Location, Retry-After".data),
   ("access-control-allow-credentials".data, "true".data),
   ("access-control-max-age".data, "86400".data)]

/-! ### Metrics commit (`commit_metrics` in `src/main.rs` and
`commit_http_metrics` in `src/metrics.rs`, which have identical
size-histogram logic) -/

/-- Model of `http_body::SizeHint`: a known lower bound and an optional upper
bound. -/
structure SizeHint where
  lower : Nat
  upper : Option Nat
  deriving DecidableEq, Repr

/-- The four size histograms. -/
inductive SizeMetric : Type where
  | request_size_low_bytes
  | request_size_high_bytes
  | response_size_low_bytes
  | response_size_high_bytes
  deriving DecidableEq, Repr

/-- The size observations made by `commit_metrics` for one terminal
response, in program order.  Note that both upper-bound observations are
driven by `req_size.upper()` in the source. -/
def commit_metrics (req_size res_size : SizeHint) : List (SizeMetric × Nat) :=
  [(.request_size_low_bytes, req_size.lower)]
  ++ (match req_size.upper with
      | some size => [(.request_size_high_bytes, size)]
      | none => [])
  ++ [(.response_size_low_bytes, res_size.lower)]
  ++ (match req_size.upper with
      | some size => [(.response_size_high_bytes, size)]
      | none => [])

/-- The observations §4.7 of the spec prescribes: each high histogram is
driven by its own size hint. -/
def specCommitMetrics (req_size res_size : SizeHint) : List (SizeMetric × Nat) :=
  [(.request_size_low_bytes, req_size.lower)]
  ++ (match req_size.upper with
      | some size => [(.request_size_high_bytes, size)]
      | none => [])
  ++ [(.response_size_low_bytes, res_size.lower)]
  ++ (match res_size.upper with
      | some size => [(.response_size_high_bytes, size)]
      | none => [])

/-! ### Endpoint field validation (`src/endpoint.rs`) -/

/-- Method `Endpoint::check_path`: non-empty and starting with a slash. -/
def check_path (p : Str) : Bool :=
  !p.isEmpty && p.head? = some '/'

/-- Content of a greedy match of `[^/]+\}` right after an opening `{`:
the window runs to the first `/`, the greedy plus picks the last `}` in
it, and the content (the characters before that `}`) must be non-empty. -/
def braceContent (rest : Str) : Option Str :=
  let w := rest.takeWhile (fun c => c ≠ '/')
  match lastIdxOf '}' w with
  | some j => if 1 ≤ j then some (w.take j) else none
  | none => none

/-- Leftmost match of `(.?)\{([^/]+)\}(.?)` in a path, reported as the
character preceding the `{` (if any) together with the captured content.
`prev` carries the character just scanned. -/
def firstParamMatch : Option Char → Str → Option (Option Char × Str)
  | _, [] => none
  | prev, c :: rest =>
    if c = '{' then
      match braceContent rest with
      | some content => some (prev, content)
      | none => firstParamMatch (some c) rest
    else firstParamMatch (some c) rest

/-- Method `Endpoint::check_parameters` from `src/endpoint.rs`.  The `while` loop
runs at most one full iteration: its final statement replaces the scratch
string by `match_param.replace("{content}", "")`, whose haystack is the
rebuilt literal `"{content}"` rather than the remaining path, so the
scratch string becomes empty and the loop exits.  Hence only the first
parameter occurrence is examined: its content must be brace-free and the
character before its `{` must be `/`. -/
def check_parameters (p : Str) : Bool :=
  match firstParamMatch none p with
  | none => true
  | some (prev, content) =>
    if content.contains '{' || content.contains '}' then false
    else decide (prev = some '/')

/-- Whether the path contains a match of `\{[^/]*\}` whose `{` is not
preceded by a `/` (spec-side notion used to state what validation would
have to reject if it constrained every parameter occurrence). -/
def hasBadParamOccur : Option Char → Str → Bool
  | _, [] => false
  | prev, c :: rest =>
    (c = '{' && closesBeforeSlash rest && decide (prev ≠ some '/'))
    || hasBadParamOccur (some c) rest

/-! ### Spec-side route-walk definitions (for the refinement claims) -/

/-- Stripping as worded by the spec: "exactly one leading slash and at
most one trailing slash". -/
def specStrip (p : Str) : Str :=
  let q := if p.head? = some '/' then p.drop 1 else p
  if q.getLast? = some '/' then q.dropLast else q

/-- Spec-side walk: follow the literal child when one exists for the exact
segment, otherwise the `param` child; fail when neither exists; return the
node reached on exhausting the segments. -/
def specReach : Node → List Str → Option Node
  | n, [] => some n
  | n, s :: rest =>
    match lookupA s n.sub_route with
    | some child => specReach child rest
    | none =>
      match n.param with
      | some child => specReach child rest
      | none => none

/-- Spec-side match result: the endpoint stored for the method at the node
reached by `specReach` over the spec-stripped, slash-split path. -/
def specMatch (n : Node) (p : Str) (m : Str) : Option Endpoint :=
  (specReach n (splitSlash (specStrip p))).bind (fun nd => lookupA m nd.endpoint_set)

/-! ### Concrete sample data used in counterexamples and witnesses -/

/-- A sample decoded claims record. -/
def sampleClaims : Claims :=
  { sub := "s1".data
    iss := "is".data
    exp := 0
    preferred_username := "pu".data
    given_name := "gn".data
    family_name := "fn".data
    email := "em".data
    token_id := "tid".data }

/-- A token source whose decoder accepts exactly the token text `"x"`
(standing for the one token signed with its key). -/
def acceptX : TokenSource :=
  { token_type := "user".data
    decode := fun t => if t = "x".data then some sampleClaims else none }

/-- A validated endpoint with path `/a` and method GET. -/
def epA : Endpoint :=
  { path := "/a".data, method := "GET".data, is_websocket := false
    permission := [], check_permission := false }

/-- Trie built from the single endpoint `epA`, exactly as `Node::new`
inserts it. -/
def trieA : Node := Node.insert Node.empty (splitSlash (strip_path epA.path)) epA

/-- A validated endpoint whose path is the bare slash `/` (accepted by
`Endpoint::check_path`: non-empty and starting with `/`). -/
def epRoot : Endpoint :=
  { path := "/".data, method := "GET".data, is_websocket := false
    permission := [], check_permission := false }

/-- Trie built from the single endpoint `epRoot`. -/
def trieRoot : Node := Node.insert Node.empty (splitSlash (strip_path epRoot.path)) epRoot

/-- The endpoint of end-to-end scenario 4 of the spec. -/
def epEvents : Endpoint :=
  { path := "/events/{id}/prediction/".data, method := "GET".data, is_websocket := false
    permission := [], check_permission := false }

/-- Trie of the `/misc` API holding `epEvents`, built by `Node::new`. -/
def trieEvents : Node := Node.new "/misc".data [epEvents]

/-- An endpoint whose parameter braces carry a literal suffix inside the
segment. -/
def epSuffix : Endpoint :=
  { path := "/{id}suffix/".data, method := "GET".data, is_websocket := false
    permission := [], check_permission := false }

/-- Trie of the `/app` API holding `epSuffix`, built by `Node::new`. -/
def trieSuffix : Node := Node.new "/app".data [epSuffix]

/-- A header-value parser that accepts everything. -/
def parseOkAll : Str → Bool := fun _ => true

/-- A sample incoming header map carrying an `Authorization` header. -/
def hdr0 : Headers := [("Authorization".data, "Bearer x".data)]

/-! ## Helper lemmas -/

/-- Method `Node::match_path` agrees with the two-phase description: first walk
to the terminal node preferring literal children, then look the method up
there. -/
theorem match_path_eq_specReach (segs : List Str) : ∀ (n : Node) (m : Str),
    Node.match_path n segs m
      = (specReach n segs).bind (fun nd => lookupA m nd.endpoint_set) := by
  induction segs with
  | nil => intro n m; rfl
  | cons s rest ih =>
    intro n m
    cases hsub : lookupA s n.sub_route with
    | some child =>
      simp only [Node.match_path, specReach, hsub]
      exact ih child m
    | none =>
      cases hpar : n.param with
      | some child =>
        simp only [Node.match_path, specReach, hsub, hpar]
        exact ih child m
      | none =>
        simp only [Node.match_path, specReach, hsub, hpar]
        rfl

/-- On a path that starts with a slash and has at least two characters,
the spec's wording of the stripping agrees with `strip_path`. -/
theorem specStrip_eq_strip (p : Str) (h1 : p.head? = some '/') (h2 : 2 ≤ p.length) :
    specStrip p = strip_path p := by
  cases p with
  | nil => simp at h1
  | cons c r =>
    have hc : c = '/' := by simpa using h1
    subst hc
    cases r with
    | nil => simp at h2
    | cons b t =>
      have hlen : ¬ (('/' :: b :: t : Str).length < 2) := by
        simp only [List.length_cons]; omega
      unfold specStrip strip_path
      rw [if_neg hlen]
      simp only [List.head?_cons, if_pos, List.getLast?_cons_cons, List.drop_one,
        List.tail_cons, if_pos rfl]

/-- Appending a slash to a slash-led path that does not already end in a
slash leaves `strip_path` unchanged. -/
theorem strip_path_append_slash (p : Str) (h1 : p.head? = some '/')
    (h2 : p.getLast? ≠ some '/') : strip_path (p ++ ['/']) = strip_path p := by
  cases p with
  | nil => simp at h1
  | cons c r =>
    have hc : c = '/' := by simpa using h1
    subst hc
    cases r with
    | nil => simp at h2
    | cons b t =>
      have hlen1 : ¬ ((('/' :: b :: t : Str) ++ ['/']).length < 2) := by
        simp only [List.length_append, List.length_cons]; omega
      have hlen2 : ¬ (('/' :: b :: t : Str).length < 2) := by
        simp only [List.length_cons]; omega
      have hlast1 : (('/' :: b :: t : Str) ++ ['/']).getLast? = some '/' :=
        List.getLast?_concat _
      unfold strip_path
      rw [if_neg hlen1, if_neg hlen2, if_pos hlast1, if_neg h2]
      simp only [List.drop_one, List.cons_append, List.tail_cons]
      rw [← List.cons_append]
      exact List.dropLast_concat

/-! ## Claim C1 -/

/-- C1 counterexample: `get_claims` never inspects the seven bytes it
strips, so an authorization value that does not begin with `"Bearer "`
can still produce claims: with a source accepting the token text `"x"`,
the header `"AAAAAAAx"` is accepted. -/
theorem C1_counterexample :
    get_claims [acceptX] "AAAAAAAx".data = some (sampleClaims, "user".data)
    ∧ "AAAAAAAx".data.take AUTH_SHIFT ≠ "Bearer ".data
    ∧ AUTH_SHIFT < "AAAAAAAx".data.length := by
  refine ⟨by decide, by decide, by decide⟩

/-- C1 amended: `get_claims` returns `None` for every header of length at
most 7 (so any accepted header is strictly longer than `"Bearer "`), and
for longer headers it drops the first 7 bytes unconditionally — without
checking that they spell `"Bearer "` — and hands the remainder to the
token sources. -/
theorem C1_theorem (sources : List TokenSource) (s : Str) :
    (s.length ≤ AUTH_SHIFT → get_claims sources s = none)
    ∧ (AUTH_SHIFT < s.length → get_claims sources s = decodeFirst sources (s.drop AUTH_SHIFT)) := by
  constructor
  · intro h
    unfold get_claims
    rw [if_pos h]
  · intro h
    unfold get_claims
    rw [if_neg (by omega)]

/-- C1 witness: the amended statement at concrete headers. -/
theorem C1_witness :
    get_claims [acceptX] "AAAAAA".data = none
    ∧ get_claims [acceptX] "AAAAAAAx".data
        = decodeFirst [acceptX] ("AAAAAAAx".data.drop AUTH_SHIFT) :=
  ⟨(C1_theorem [acceptX] "AAAAAA".data).1 (by decide),
   (C1_theorem [acceptX] "AAAAAAAx".data).2 (by decide)⟩

/-! ## Claim C2 -/

/-- C2 counterexample: for the request path `"/"` the code strips nothing
(`strip_path` leaves paths shorter than two characters alone, giving
segments `["", ""]`), while the claim's "exactly one leading slash"
stripping gives `[""]`; on the trie holding the validated endpoint with
path `"/"` the two walks disagree. -/
theorem C2_counterexample :
    matchFull trieRoot "/".data "GET".data = some epRoot
    ∧ specMatch trieRoot "/".data "GET".data = none := by
  refine ⟨by decide, by decide⟩

/-- C2 amended: for every trie, method, and request path that starts with
a slash and has at least two characters, `match` returns exactly the
endpoint stored for the method at the node reached by walking the
stripped, slash-split segments with literal children outranking the
`param` child. -/
theorem C2_theorem (n : Node) (p m : Str) (h1 : p.head? = some '/') (h2 : 2 ≤ p.length) :
    matchFull n p m = specMatch n p m := by
  unfold matchFull specMatch
  rw [specStrip_eq_strip p h1 h2]
  exact match_path_eq_specReach _ n m

/-- C2 witness: the amended statement at a concrete trie and path. -/
theorem C2_witness :
    matchFull trieA "/a".data "GET".data = specMatch trieA "/a".data "GET".data :=
  C2_theorem trieA "/a".data "GET".data (by decide) (by decide)

/-! ## Claim C7 -/

/-- C7 counterexample: trailing-slash invariance of `match` fails for a
path that already ends in a slash: on the trie built from the validated
endpoint `/a`, the path `"/a/"` (which begins with `/` and contains a
non-slash character) matches, but `"/a/" ++ "/"` does not. -/
theorem C7_counterexample :
    matchFull trieA "/a/".data "GET".data = some epA
    ∧ matchFull trieA ("/a/".data ++ "/".data) "GET".data = none
    ∧ "/a/".data.head? = some '/'
    ∧ "/a/".data.any (fun c => c ≠ '/') = true := by
  refine ⟨by decide, by decide, by decide, by decide⟩

/-- C7 amended: for every path that starts with a slash and does not
already end in one, inserting an endpoint under the path with a trailing
slash added builds the identical trie, and matching with the trailing
slash added yields the identical result. -/
theorem C7_theorem (n : Node) (e : Endpoint) (m p : Str) (h1 : p.head? = some '/')
    (h2 : p.getLast? ≠ some '/') :
    Node.insert n (splitSlash (strip_path (p ++ ['/']))) e
      = Node.insert n (splitSlash (strip_path p)) e
    ∧ matchFull n (p ++ ['/']) m = matchFull n p m := by
  unfold matchFull
  rw [strip_path_append_slash p h1 h2]
  exact ⟨rfl, rfl⟩

/-- C7 witness: the amended statement at the concrete path `/a`. -/
theorem C7_witness :
    Node.insert Node.empty (splitSlash (strip_path ("/a".data ++ ['/']))) epA
      = Node.insert Node.empty (splitSlash (strip_path "/a".data)) epA
    ∧ matchFull trieA ("/a".data ++ ['/']) "GET".data = matchFull trieA "/a".data "GET".data :=
  ⟨(C7_theorem Node.empty epA "GET".data "/a".data (by decide) (by decide)).1,
   (C7_theorem trieA epA "GET".data "/a".data (by decide) (by decide)).2⟩

/-! ## Claim C3 -/

/-- C3: `build_permission` derives the permission as
`app ++ "::" ++ method ++ "::" ++ path-with-parameters-collapsed`, where
every `\{[^/]*\}` occurrence is rewritten to `{}`; `Node::new` applies it
with `app_name[1..]`; and in particular the endpoint
`/events/{id}/prediction/` of the `/misc` API, matched at
`/events/42/prediction/` with method GET, carries permission
`misc::GET::/events/{}/prediction/`. -/
theorem C3_theorem (e : Endpoint) (app : Str) :
    (e.build_permission app).permission
      = app ++ "::".data ++ e.method ++ "::".data ++ replaceParams e.path
    ∧ Node.new "/misc".data [epEvents]
      = Node.insert Node.empty (splitSlash (strip_path epEvents.path))
          (epEvents.build_permission "misc".data)
    ∧ (epEvents.build_permission "misc".data).permission
      = "misc::GET::/events/{}/prediction/".data
    ∧ matchFull trieEvents "/events/42/prediction/".data "GET".data
      = some (epEvents.build_permission "misc".data) :=
  ⟨rfl, rfl, by decide, by decide⟩

/-! ## Claim C4 -/

/-- C4: for an API in `forward_all` mode with app key `"/" ++ A`, the
dispatcher synthesizes an endpoint with `check_permission = true`,
`is_websocket = false` and permission `A ++ "::" ++ method ++
"::FULL_ACCESS"`, and the permission check is `has_perm` on exactly that
string. -/
theorem C4_theorem (A forwarded_path method tok : Str) (perm : List (Str × List Str)) :
    (Endpoint.from_forward_all forwarded_path method ('/' :: A)).check_permission = true
    ∧ (Endpoint.from_forward_all forwarded_path method ('/' :: A)).is_websocket = false
    ∧ (Endpoint.from_forward_all forwarded_path method ('/' :: A)).permission
        = A ++ "::".data ++ method ++ "::FULL_ACCESS".data
    ∧ forwardAllPermCheck perm ('/' :: A) forwarded_path method tok
        = has_perm perm (A ++ "::".data ++ method ++ "::FULL_ACCESS".data) tok :=
  ⟨rfl, rfl, rfl, rfl⟩

/-! ## Claim C8 -/

/-- C8 counterexample: the CORS set of the gateway's own responses is not
the full set the claim lists — `get_response` never sets
`Access-Control-Expose-Headers`, and the `/health` response carries
neither `Access-Control-Allow-Credentials` nor `Access-Control-Max-Age`
nor the expose header. -/
theorem C8_counterexample :
    lookupH "access-control-expose-headers".data get_response_headers = none
    ∧ lookupH "access-control-expose-headers".data health_headers = none
    ∧ lookupH "access-control-allow-credentials".data health_headers = none
    ∧ lookupH "access-control-max-age".data health_headers = none
    ∧ lookupH "access-control-expose-headers".data specCorsHeaders
        = some "Location, Retry-After".data := by
  refine ⟨by decide, by decide, by decide, by decide, by decide⟩

/-- C8 amended: every terminal response built by `get_response` (the 404,
403, 204, 426 and 502 responses) carries exactly `Allow-Origin: *`,
`Allow-Headers: *`, `Allow-Methods: *`, `Allow-Credentials: true` and
`Max-Age: 86400` — with no `Expose-Headers` — while the `/health`
response carries only the first three of these. -/
theorem C8_theorem :
    lookupH "access-control-allow-origin".data get_response_headers = some "*".data
    ∧ lookupH "access-control-allow-headers".data get_response_headers = some "*".data
    ∧ lookupH "access-control-allow-methods".data get_response_headers = some "*".data
    ∧ lookupH "access-control-allow-credentials".data get_response_headers = some "true".data
    ∧ lookupH "access-control-max-age".data get_response_headers = some "86400".data
    ∧ lookupH "access-control-expose-headers".data get_response_headers = none
    ∧ lookupH "access-control-allow-origin".data health_headers = some "*".data
    ∧ lookupH "access-control-allow-headers".data health_headers = some "*".data
    ∧ lookupH "access-control-allow-methods".data health_headers = some "*".data
    ∧ lookupH "access-control-allow-credentials".data health_headers = none
    ∧ lookupH "access-control-max-age".data health_headers = none
    ∧ lookupH "access-control-expose-headers".data health_headers = none := by
  refine ⟨by decide, by decide, by decide, by decide, by decide, by decide, by decide,
    by decide, by decide, by decide, by decide, by decide⟩

/-! ## Claim C9 -/

/-- C9: the metrics commit is buggy on the response-size upper bound.
Both the gate and the observed value of `response_size_high_bytes` come
from the request size hint (`req_size.upper()` on lines 93 and 63 of
`src/main.rs` and `src/metrics.rs`), contradicting the histogram's own
description and §4.7 of the spec: with request hint (1, Some 10) and
response hint (5, Some 20) the code records 10 where the spec records 20,
and with request hint (0, None) and response hint (5, Some 7) the code
records no response-high observation at all although the response's upper
bound is known. -/
theorem C9_theorem :
    commit_metrics ⟨1, some 10⟩ ⟨5, some 20⟩
      = [(.request_size_low_bytes, 1), (.request_size_high_bytes, 10),
         (.response_size_low_bytes, 5), (.response_size_high_bytes, 10)]
    ∧ specCommitMetrics ⟨1, some 10⟩ ⟨5, some 20⟩
      = [(.request_size_low_bytes, 1), (.request_size_high_bytes, 10),
         (.response_size_low_bytes, 5), (.response_size_high_bytes, 20)]
    ∧ commit_metrics ⟨0, none⟩ ⟨5, some 7⟩
      = [(.request_size_low_bytes, 0), (.response_size_low_bytes, 5)]
    ∧ specCommitMetrics ⟨0, none⟩ ⟨5, some 7⟩
      = [(.request_size_low_bytes, 0), (.response_size_low_bytes, 5),
         (.response_size_high_bytes, 7)] := by
  refine ⟨by decide, by decide, by decide, by decide⟩

/-! ## Claim C10 -/

/-- C10 counterexample: endpoint validation does not constrain the
character before *each* `{`: the path `"/{a}/b{c}/"`, whose second
parameter occurrence is preceded by `b`, is accepted, because the
validation loop's scratch string is emptied after the first iteration. -/
theorem C10_counterexample :
    check_parameters "/{a}/b{c}/".data = true
    ∧ hasBadParamOccur none "/{a}/b{c}/".data = true := by
  refine ⟨by decide, by decide⟩

/-- C10 amended: a segment is classified as a parameter capture whenever
it contains a `\{[^/]*\}` match anywhere (so `a{x}b` is a parameter
segment); at insert time the segment's literal text is discarded (any two
parameter segments build the same trie); at match time the `param` child
accepts any whole segment; and validation — which examines only the
*first* parameter occurrence, requiring `/` before its `{` and no braces
in its content, with no constraint on the text following `}` — accepts
`/{id}suffix/`, whose trie then matches every single-segment path. -/
theorem C10_theorem :
    (∀ (n : Node) (s t : Str) (rest : List Str) (e : Endpoint),
      isParam s = true → isParam t = true →
        Node.insert n (s :: rest) e = Node.insert n (t :: rest) e)
    ∧ isParam "a{x}b".data = true
    ∧ (∀ (n child : Node) (s : Str) (rest : List Str) (m : Str),
        lookupA s n.sub_route = none → n.param = some child →
          Node.match_path n (s :: rest) m = Node.match_path child rest m)
    ∧ check_parameters "/{id}suffix/".data = true
    ∧ check_path "/{id}suffix/".data = true
    ∧ (∀ s : Str, Node.match_path trieSuffix [s] "GET".data
        = some (epSuffix.build_permission "app".data)) := by
  refine ⟨?_, by decide, ?_, by decide, by decide, ?_⟩
  · intro n s t rest e hs ht
    simp only [Node.insert, hs, ht, if_true]
  · intro n child s rest m hsub hpar
    simp only [Node.match_path, hsub, hpar]
  · intro s
    rfl

/-- C10 witness: the amended statement at concrete inputs. -/
theorem C10_witness :
    Node.insert Node.empty ["{x}".data] epA = Node.insert Node.empty ["{y}".data] epA
    ∧ Node.match_path trieSuffix ["anything".data] "GET".data
        = some (epSuffix.build_permission "app".data) :=
  ⟨C10_theorem.1 Node.empty "{x}".data "{y}".data [] epA (by decide) (by decide),
   C10_theorem.2.2.2.2.2 "anything".data⟩

/-! ## Claim C6 -/

/-- A leading failure run of length at least `m ≥ 1` is in particular a
failure run. -/
theorem hasFailRun_of_leadFails {α : Type} (m : Nat) (hm : 1 ≤ m)
    (r : List (FetchOutcome α)) (h : m ≤ leadFails r) : hasFailRun m r = true := by
  cases r with
  | nil =>
    simp only [leadFails] at h
    omega
  | cons x r' =>
    simp only [hasFailRun, Bool.or_eq_true, decide_eq_true_eq]
    exact Or.inl h

/-- The refresher run starting at counter `c < max` aborts exactly when
the leading failure run already exhausts the remaining budget or a full
run of `max` consecutive failures occurs somewhere in the outcome list. -/
theorem permRun_abort_iff {α : Type} (max : Nat) (hmax : 1 ≤ max) :
    ∀ (l : List (FetchOutcome α)) (c : Nat) (maps : α), c < max →
      (permRun max c maps l = none
        ↔ (max ≤ c + leadFails l ∨ hasFailRun max l = true)) := by
  intro l
  induction l with
  | nil =>
    intro c maps hc
    simp only [permRun, leadFails, hasFailRun]
    constructor
    · intro h; exact absurd h (by simp)
    · rintro (h | h)
      · omega
      · simp at h
  | cons x r ih =>
    intro c maps hc
    cases x with
    | none =>
      simp only [permRun]
      by_cases hab : max ≤ c + 1
      · rw [if_pos hab]
        simp only [leadFails]
        constructor
        · intro _; exact Or.inl (by omega)
        · intro _; trivial
      · rw [if_neg hab]
        rw [ih (c + 1) maps (by omega)]
        simp only [leadFails, hasFailRun, Bool.or_eq_true, decide_eq_true_eq]
        constructor
        · rintro (h | h)
          · exact Or.inl (by omega)
          · exact Or.inr (Or.inr h)
        · rintro (h | h | h)
          · exact Or.inl (by omega)
          · exact Or.inl (by omega)
          · exact Or.inr h
    | some m =>
      simp only [permRun]
      rw [ih 0 m (by omega)]
      simp only [leadFails, hasFailRun, Bool.or_eq_true, decide_eq_true_eq]
      constructor
      · rintro (h | h)
        · exact Or.inr (Or.inr (hasFailRun_of_leadFails max hmax r (by omega)))
        · exact Or.inr (Or.inr h)
      · rintro (h | h | h)
        · omega
        · omega
        · exact Or.inr h

/-- C6: one failed fetch cycle increments the consecutive-error counter
and the loop aborts exactly when the counter reaches
`max_fetch_error_count`; one successful cycle installs the new maps and
resets the counter to zero; consequently a run started with a zero
counter aborts if and only if the outcomes contain
`max_fetch_error_count` consecutive failures. -/
theorem C6_theorem {α : Type} (max c : Nat) (maps maps' : α) (l : List (FetchOutcome α))
    (hmax : 1 ≤ max) (hc : c < max) :
    (permRun max c maps (none :: l)
      = if c + 1 = max then none else permRun max (c + 1) maps l)
    ∧ permRun max c maps (some maps' :: l) = permRun max 0 maps' l
    ∧ (permRun max 0 maps l = none ↔ hasFailRun max l = true) := by
  refine ⟨?_, rfl, ?_⟩
  · by_cases h : c + 1 = max
    · simp only [permRun]
      rw [if_pos (by omega), if_pos h]
    · simp only [permRun]
      rw [if_neg (by omega), if_neg h]
  · rw [permRun_abort_iff max hmax l 0 maps (by omega)]
    constructor
    · rintro (h | h)
      · exact hasFailRun_of_leadFails max hmax l (by omega)
      · exact h
    · intro h
      exact Or.inr h

/-- C6 witness: the refresher statement at a concrete budget and outcome
list. -/
theorem C6_witness :
    (permRun 2 0 (0 : Nat) (none :: [none])
      = if 0 + 1 = 2 then none else permRun 2 (0 + 1) 0 [none])
    ∧ permRun 2 0 (0 : Nat) (some 7 :: [none]) = permRun 2 0 7 [none]
    ∧ (permRun 2 0 (0 : Nat) [none] = none ↔ hasFailRun 2 [(none : FetchOutcome Nat)] = true) :=
  C6_theorem 2 0 0 7 [none] (by decide) (by decide)

/-! ## Claim C5 -/

/-- Unfolding step of `removeH` on a non-empty header list. -/
theorem removeH_cons (k' : Str) (a : Str × Str) (t : Headers) :
    removeH k' (a :: t) = if a.1 = k' then removeH k' t else a :: removeH k' t := by
  by_cases h : a.1 = k' <;> simp [removeH, List.filter_cons, h]

/-- Looking a name up after removing another name: removal of the same
name yields nothing, removal of a different name is transparent. -/
theorem lookupH_removeH (k k' : Str) (hs : Headers) :
    lookupH k (removeH k' hs) = if k = k' then none else lookupH k hs := by
  simp only [lookupH]
  induction hs with
  | nil => simp [removeH, lookupA]
  | cons a t ih =>
    obtain ⟨ka, va⟩ := a
    rw [removeH_cons]
    by_cases h1 : ka = k'
    · rw [if_pos h1, ih]
      by_cases h2 : k = k'
      · simp [h2]
      · have h3 : ¬ ka = k := fun hk => h2 (hk.symm.trans h1)
        simp [lookupA, h2, h3]
    · rw [if_neg h1]
      simp only [lookupA]
      by_cases h3 : ka = k
      · have h2 : ¬ k = k' := fun hk => h1 (h3.trans hk)
        simp [h3, h2]
      · simp [h3, ih]

/-- Looking a name up after an insert: the inserted name returns the new
value, any other name is unaffected. -/
theorem lookupH_insertH (k k' v : Str) (hs : Headers) :
    lookupH k (insertH k' v hs) = if k' = k then some v else lookupH k hs := by
  by_cases h : k' = k
  · simp only [insertH, lookupH, lookupA, if_pos h]
  · simp only [insertH, lookupH, lookupA, if_neg h]
    have := lookupH_removeH k k' hs
    simp only [lookupH] at this
    rw [this, if_neg (fun hk => h hk.symm)]

/-- A conditional injection of a different name never affects a lookup. -/
theorem lookupH_injectStep_ne (n k : Str) (po : Str → Bool) (v : Str) (hs : Headers)
    (hne : n ≠ k) : lookupH k (injectStep po n v hs) = lookupH k hs := by
  unfold injectStep
  by_cases hp : po v
  · rw [if_pos hp, lookupH_insertH, if_neg hne]
  · rw [if_neg hp]

/-- A conditional injection of the looked-up name installs the value
exactly when it parses. -/
theorem lookupH_injectStep_self (n v : Str) (po : Str → Bool) (hs : Headers) :
    lookupH n (injectStep po n v hs) = if po v then some v else lookupH n hs := by
  unfold injectStep
  by_cases hp : po v
  · rw [if_pos hp, if_pos hp, lookupH_insertH, if_pos rfl]
  · rw [if_neg hp, if_neg hp]

/-- C5: with the `remove_authorization_header` feature enabled (modelled
from the spec), the outbound header map built by `inject_headers` never
carries `Authorization`, and each of the seven `X-Forwarded-User-*`
headers carries its claims-derived value when that value parses as a
header value and is skipped (leaving the underlying map untouched at that
name) when it does not. -/
theorem C5_theorem (parseOk : Str → Bool) (h : Headers) (claims : Claims)
    (app_user_roles token_type : Str) :
    lookupH hAuthorization
        (inject_headers removeAuthorizationFeature parseOk h claims app_user_roles token_type)
      = none
    ∧ (parseOk claims.token_id = true →
        lookupH hXFUser
            (inject_headers removeAuthorizationFeature parseOk h claims app_user_roles token_type)
          = some claims.token_id)
    ∧ (parseOk claims.token_id = false →
        lookupH hXFUser
            (inject_headers removeAuthorizationFeature parseOk h claims app_user_roles token_type)
          = lookupH hXFUser (removeH hAuthorization h))
    ∧ (parseOk claims.preferred_username = true →
        lookupH hXFUsername
            (inject_headers removeAuthorizationFeature parseOk h claims app_user_roles token_type)
          = some claims.preferred_username)
    ∧ (parseOk claims.preferred_username = false →
        lookupH hXFUsername
            (inject_headers removeAuthorizationFeature parseOk h claims app_user_roles token_type)
          = lookupH hXFUsername (removeH hAuthorization h))
    ∧ (parseOk claims.given_name = true →
        lookupH hXFFirstName
            (inject_headers removeAuthorizationFeature parseOk h claims app_user_roles token_type)
          = some claims.given_name)
    ∧ (parseOk claims.given_name = false →
        lookupH hXFFirstName
            (inject_headers removeAuthorizationFeature parseOk h claims app_user_roles token_type)
          = lookupH hXFFirstName (removeH hAuthorization h))
    ∧ (parseOk claims.family_name = true →
        lookupH hXFLastName
            (inject_headers removeAuthorizationFeature parseOk h claims app_user_roles token_type)
          = some claims.family_name)
    ∧ (parseOk claims.family_name = false →
        lookupH hXFLastName
            (inject_headers removeAuthorizationFeature parseOk h claims app_user_roles token_type)
          = lookupH hXFLastName (removeH hAuthorization h))
    ∧ (parseOk claims.email = true →
        lookupH hXFEmail
            (inject_headers removeAuthorizationFeature parseOk h claims app_user_roles token_type)
          = some claims.email)
    ∧ (parseOk claims.email = false →
        lookupH hXFEmail
            (inject_headers removeAuthorizationFeature parseOk h claims app_user_roles token_type)
          = lookupH hXFEmail (removeH hAuthorization h))
    ∧ (parseOk app_user_roles = true →
        lookupH hXFRoles
            (inject_headers removeAuthorizationFeature parseOk h claims app_user_roles token_type)
          = some app_user_roles)
    ∧ (parseOk app_user_roles = false →
        lookupH hXFRoles
            (inject_headers removeAuthorizationFeature parseOk h claims app_user_roles token_type)
          = lookupH hXFRoles (removeH hAuthorization h))
    ∧ (parseOk token_type = true →
        lookupH hXFType
            (inject_headers removeAuthorizationFeature parseOk h claims app_user_roles token_type)
          = some token_type)
    ∧ (parseOk token_type = false →
        lookupH hXFType
            (inject_headers removeAuthorizationFeature parseOk h claims app_user_roles token_type)
          = lookupH hXFType (removeH hAuthorization h)) := by
  refine ⟨?_, ?_, ?_, ?_, ?_, ?_, ?_, ?_, ?_, ?_, ?_, ?_, ?_, ?_, ?_⟩ <;>
    try intro hpo
  all_goals
    simp [inject_headers, removeAuthorizationFeature, lookupH_injectStep_ne,
      lookupH_injectStep_self, lookupH_removeH, hAuthorization, hXFUser, hXFUsername,
      hXFFirstName, hXFLastName, hXFEmail, hXFRoles, hXFType, *]

/-- C5 witness: the injection statement at a concrete header map, claims
record and all-accepting parser. -/
theorem C5_witness :
    lookupH hAuthorization
        (inject_headers removeAuthorizationFeature parseOkAll hdr0 sampleClaims
          "r1".data "user".data)
      = none
    ∧ lookupH hXFUser
        (inject_headers removeAuthorizationFeature parseOkAll hdr0 sampleClaims
          "r1".data "user".data)
      = some sampleClaims.token_id :=
  ⟨(C5_theorem parseOkAll hdr0 sampleClaims "r1".data "user".data).1,
   (C5_theorem parseOkAll hdr0 sampleClaims "r1".data "user".data).2.1 rfl⟩

end Gateway
